import Mathlib

/-!
# Formal model of the polar-plant EC dashboard (`src/main.py`)

The program loads per-school environment CSV logs and a growth workbook,
normalizes school names (NFC), intersects the two key sets, joins each
school's mean electrical conductivity (EC) onto its growth rows, and picks
the EC value whose group has the maximal mean fresh weight.

Modelling conventions:
* Strings (school names, file stems/extensions) are lists of Unicode code
  points (`List Nat`); Python string comparison is code-point lexicographic,
  which coincides with the `LinearOrder (List ℕ)` order used here.
* Numeric cell values are `ℚ` (exact arithmetic stands in for IEEE floats).
* A pandas timestamp cell is abstracted by its parse result `Option Nat`
  (`none` = `pd.to_datetime` would raise).
* Python dicts are association lists with insertion-order keys;
  `dict[k] = v` is `dictInsert`, which keeps the original position of an
  existing key and replaces its value, as CPython does.
* `groupby` sorts its group keys ascending (pandas default `sort=True`);
  `Series.idxmax` returns the first index attaining the maximum.
-/

namespace ECDash

/-- School names and other text, modelled as lists of Unicode code points. -/
abbrev Key := List Nat

/-! ## Name normalizer (`normalize_name`, src/main.py lines 31–32)

`unicodedata.normalize("NFC", name)` is library code; it is modelled here on
the algorithmic Hangul-syllable fragment of Unicode (UAX #15 §3.12), the
fragment relevant to the Korean school names this program handles: NFC is
canonical decomposition followed by canonical composition.  Constants:
`LBase = 0x1100 = 4352`, `VBase = 0x1161 = 4449`, `TBase = 0x11A7 = 4519`,
`SBase = 0xAC00 = 44032`, `VCount*TCount = 588`, `TCount = 28`,
`SCount = 11172`. -/

/-- Canonical decomposition of one code point (Hangul fragment): a precomposed
syllable decomposes to its jamo; every other code point is untouched. -/
def decomposeChar (c : Nat) : List Nat :=
  if 44032 ≤ c ∧ c < 55204 then
    if (c - 44032) % 28 = 0 then
      [4352 + (c - 44032) / 588, 4449 + (c - 44032) % 588 / 28]
    else
      [4352 + (c - 44032) / 588, 4449 + (c - 44032) % 588 / 28,
        4519 + (c - 44032) % 28]
  else [c]

/-- Canonical decomposition of a string (Hangul fragment). -/
def hangulDecompose (s : List Nat) : List Nat :=
  s.flatMap decomposeChar

/-- Canonical composition sweep: `pend` is the pending starter; an L jamo
followed by a V jamo composes to an LV syllable, an LV syllable followed by a
T jamo composes to an LVT syllable. -/
def composeAux (pend : Nat) : List Nat → List Nat
  | [] => [pend]
  | c :: rest =>
    if (4352 ≤ pend ∧ pend < 4371) ∧ (4449 ≤ c ∧ c < 4470) then
      composeAux (44032 + ((pend - 4352) * 21 + (c - 4449)) * 28) rest
    else if ((44032 ≤ pend ∧ pend < 55204) ∧ (pend - 44032) % 28 = 0) ∧
        (4520 ≤ c ∧ c < 4547) then
      composeAux (pend + (c - 4519)) rest
    else
      pend :: composeAux c rest

/-- Canonical composition of a string (Hangul fragment). -/
def composeHangul : List Nat → List Nat
  | [] => []
  | c :: rest => composeAux c rest

/-- `normalize_name` (src/main.py line 31): NFC normalization, i.e. canonical
decomposition followed by canonical composition. -/
def normalize_name (s : Key) : Key :=
  composeHangul (hangulDecompose s)

/-! ## Data model -/

/-- One CSV row as read by `pd.read_csv`: the `time` cell is abstracted by its
`pd.to_datetime` parse result. -/
structure RawEnvRow where
  time : Option Nat
  temperature : ℚ
  humidity : ℚ
  ph : ℚ
  ec : ℚ
deriving DecidableEq, Repr

/-- An environment record after `df["time"] = pd.to_datetime(df["time"])`. -/
structure EnvRow where
  time : Nat
  temperature : ℚ
  humidity : ℚ
  ph : ℚ
  ec : ℚ
deriving DecidableEq, Repr

/-- One workbook sheet row (measured traits) before the loader tags it. -/
structure RawGrowthRow where
  leaf_count : ℚ
  shoot_length_mm : ℚ
  fresh_weight_g : ℚ
deriving DecidableEq, Repr

/-- A growth record after `df["학교"] = school` (src/main.py line 64). -/
structure GrowthRow where
  school : Key
  leaf_count : ℚ
  shoot_length_mm : ℚ
  fresh_weight_g : ℚ
deriving DecidableEq, Repr

/-- A row of the combined growth table `growth_all` after the EC join
(src/main.py line 143). -/
structure JoinedRow where
  school : Key
  leaf_count : ℚ
  shoot_length_mm : ℚ
  fresh_weight_g : ℚ
  EC : ℚ
deriving DecidableEq, Repr

/-- One file of the data directory.  `stem`/`ext` mirror `Path.stem` /
`Path.suffix`; `hasTimeColumn` and `envRows` are its content when read as a
CSV, `sheets` its content when read as a workbook (name × rows). -/
structure DataFile where
  stem : Key
  ext : Key
  hasTimeColumn : Bool
  envRows : List RawEnvRow
  sheets : List (Key × List RawGrowthRow)
deriving DecidableEq, Repr

/-- Error taxonomy of the script's fatal conditions (`st.error` + `st.stop`,
plus the `ValueError` that `idxmax` raises on an all-empty join). -/
inductive AppError where
  | DataFormatError
  | EmptyDatasetError
  | NoOverlapError
  | ValueError
deriving DecidableEq, Repr

instance {ε : Type u} {α : Type v} [DecidableEq ε] [DecidableEq α] :
    DecidableEq (Except ε α) := fun a b =>
  match a, b with
  | Except.error e, Except.error e' =>
    decidable_of_iff (e = e') (by simp)
  | Except.error _, Except.ok _ => isFalse (fun h => Except.noConfusion h)
  | Except.ok _, Except.error _ => isFalse (fun h => Except.noConfusion h)
  | Except.ok x, Except.ok y =>
    decidable_of_iff (x = y) (by simp)

/-- ASCII lower-casing of one code point (`str.lower` on extensions). -/
def lowerChar (c : Nat) : Nat :=
  if 65 ≤ c ∧ c ≤ 90 then c + 32 else c

/-- `f.suffix.lower()`. -/
def lowerExt (e : Key) : Key :=
  e.map lowerChar

/-- Code points of `".csv"`. -/
def csvExt : Key := [46, 99, 115, 118]

/-- Code points of `".xlsx"`. -/
def xlsxExt : Key := [46, 120, 108, 115, 120]

/-- `f.stem.split("_")[0]`: the stem up to the first underscore (95). -/
def stemSchool (stem : Key) : Key :=
  stem.takeWhile (fun c => c != 95)

/-- Python `dict[k] = v` on an insertion-ordered association list: an existing
key keeps its position and gets the new value, a new key is appended. -/
def dictInsert (k : Key) (v : α) : List (Key × α) → List (Key × α)
  | [] => [(k, v)]
  | (k', v') :: rest =>
    if k' = k then (k, v) :: rest else (k', v') :: dictInsert k v rest

/-- Python `dict.get(k)`. -/
def dictGet (k : Key) : List (Key × α) → Option α
  | [] => none
  | (k', v') :: rest => if k' = k then some v' else dictGet k rest

/-- `dict.keys()` in insertion order. -/
def keys (m : List (Key × α)) : List Key :=
  m.map Prod.fst

/-! ## Loaders (src/main.py lines 37–66) -/

/-- `pd.to_datetime` over the rows of one file: the first unparseable `time`
cell aborts the file with the spec's `DataFormatError`. -/
def parseEnvRows : List RawEnvRow → Except AppError (List EnvRow)
  | [] => Except.ok []
  | r :: rest =>
    match r.time with
    | none => Except.error AppError.DataFormatError
    | some t =>
      (parseEnvRows rest).map
        (fun rs => ⟨t, r.temperature, r.humidity, r.ph, r.ec⟩ :: rs)

/-- Parsing one CSV file: `df["time"]` raises if the column is missing,
`pd.to_datetime` raises if a cell does not parse (src/main.py line 44); both
surface as the spec's `DataFormatError`, failing the whole file. -/
def parseEnvFile (f : DataFile) : Except AppError (List EnvRow) :=
  if f.hasTimeColumn then parseEnvRows f.envRows
  else Except.error AppError.DataFormatError

/-- The environment loader's loop over the directory listing. -/
def loadEnvAux (acc : List (Key × List EnvRow)) :
    List DataFile → Except AppError (List (Key × List EnvRow))
  | [] => Except.ok acc
  | f :: rest =>
    if lowerExt f.ext = csvExt then
      match parseEnvFile f with
      | Except.error e => Except.error e
      | Except.ok rows =>
        loadEnvAux (dictInsert (normalize_name (stemSchool f.stem)) rows acc) rest
    else loadEnvAux acc rest

/-- `load_environment_data` (src/main.py lines 38–46): for each `.csv` file in
enumeration order, derive the school key from the stem, parse the file, and
assign `env_data[school] = df`. -/
def load_environment_data (files : List DataFile) :
    Except AppError (List (Key × List EnvRow)) :=
  loadEnvAux [] files

/-- The growth loader's loop over the workbook's sheets. -/
def loadSheets (acc : List (Key × List GrowthRow)) :
    List (Key × List RawGrowthRow) → List (Key × List GrowthRow)
  | [] => acc
  | sheet :: rest =>
    loadSheets
      (dictInsert (normalize_name sheet.1)
        (sheet.2.map (fun r =>
          ⟨normalize_name sheet.1, r.leaf_count, r.shoot_length_mm,
            r.fresh_weight_g⟩)) acc) rest

/-- `load_growth_data` (src/main.py lines 49–66): find the first `.xlsx` file;
if none, return the empty mapping; otherwise read each sheet, tag its rows
with the normalized sheet name (`df["학교"] = school`), and assign
`growth[school] = df`. -/
def load_growth_data (files : List DataFile) : List (Key × List GrowthRow) :=
  match files.find? (fun f => lowerExt f.ext == xlsxExt) with
  | none => []
  | some wb => loadSheets [] wb.sheets

/-! ## Reconciliation and aggregation (src/main.py lines 88–151) -/

abbrev EnvMap := List (Key × List EnvRow)
abbrev GrowthMap := List (Key × List GrowthRow)

/-- `common_schools = sorted(set(env_data.keys()) & set(growth_data.keys()))`
(src/main.py line 88): ascending code-point-lexicographic order, no
duplicates. -/
def common_schools (env : EnvMap) (growth : GrowthMap) : List Key :=
  List.insertionSort (· ≤ ·)
    (((keys env).filter (fun k => decide (k ∈ keys growth))).dedup)

/-- `missing_env = set(growth_data.keys()) - set(env_data.keys())`
(src/main.py line 94), as a duplicate-free list. -/
def missing_env (env : EnvMap) (growth : GrowthMap) : List Key :=
  ((keys growth).filter (fun k => decide (k ∉ keys env))).dedup

/-- `env_data[s]` with a default for absent keys (cannot occur on the paths
the script takes). -/
def schoolEnvRows (env : EnvMap) (s : Key) : List EnvRow :=
  (dictGet s env).getD []

/-- `growth_data[s]` with a default for absent keys. -/
def growthRows (growth : GrowthMap) (s : Key) : List GrowthRow :=
  (dictGet s growth).getD []

/-- `pd.Series.mean`: sum over length (0 stands in for the NaN of an empty
series; every use below is guarded by nonemptiness). -/
def listMean (l : List ℚ) : ℚ :=
  l.sum / l.length

/-- `ec_map[s] = env_data[s]["ec"].mean()` (src/main.py line 142). -/
def schoolEcMean (env : EnvMap) (s : Key) : ℚ :=
  listMean ((schoolEnvRows env s).map (·.ec))

/-- The combined growth table with the EC join (src/main.py lines 141–143):
concatenate the common schools' growth rows and attach
`EC = ec_map[row.학교]`.  Loader-built rows carry their dict key in `school`,
so the lookup is by the row's own tag, as `growth_all["학교"].map(ec_map)`
is. -/
def growth_all (env : EnvMap) (growth : GrowthMap) : List JoinedRow :=
  (common_schools env growth).flatMap (fun s =>
    (growthRows growth s).map (fun r =>
      ⟨r.school, r.leaf_count, r.shoot_length_mm, r.fresh_weight_g,
        schoolEcMean env r.school⟩))

/-- The growth loader tags every row of a sheet with that sheet's (normalized)
name, which is also its dict key. -/
def TaggedGrowth (growth : GrowthMap) : Prop :=
  ∀ p ∈ growth, ∀ r ∈ p.2, r.school = p.1

instance (growth : GrowthMap) : Decidable (TaggedGrowth growth) := by
  unfold TaggedGrowth
  infer_instance

/-- The distinct group keys of `growth_all.groupby("EC")`, ascending (pandas
`sort=True` default). -/
def ecGroups (rows : List JoinedRow) : List ℚ :=
  List.insertionSort (· ≤ ·) ((rows.map (·.EC)).dedup)

/-- The members of one EC group of `growth_all.groupby("EC")`. -/
def rowsWithEC (g : ℚ) : List JoinedRow → List JoinedRow
  | [] => []
  | r :: rest =>
    if r.EC = g then r :: rowsWithEC g rest else rowsWithEC g rest

/-- The grouped mean `groupby("EC")["생중량(g)"].mean()` at one group key. -/
def groupMean (rows : List JoinedRow) (g : ℚ) : ℚ :=
  listMean ((rowsWithEC g rows).map (·.fresh_weight_g))

/-- `Series.idxmax` sweep: keep the current best, replace it only on a
strictly greater value, so the first maximum wins. -/
def idxmaxAux (f : ℚ → ℚ) (best : ℚ) : List ℚ → ℚ
  | [] => best
  | x :: xs => if f best < f x then idxmaxAux f x xs else idxmaxAux f best xs

/-- `Series.idxmax`: first index attaining the maximum; `none` on an empty
series (pandas raises `ValueError` there). -/
def idxmax (f : ℚ → ℚ) : List ℚ → Option ℚ
  | [] => none
  | x :: xs => some (idxmaxAux f x xs)

/-- `optimal_ec = growth_all.groupby("EC")["생중량(g)"].mean().idxmax()`
(src/main.py line 145). -/
def optimal_ec (env : EnvMap) (growth : GrowthMap) : Option ℚ :=
  idxmax (groupMean (growth_all env growth)) (ecGroups (growth_all env growth))

/-- Python `round` tie handling: round half to even (banker's rounding);
away from a tie it is rounding to the nearest integer. -/
def roundHalfEven (q : ℚ) : ℤ :=
  if q - ⌊q⌋ = 1 / 2 then
    (if Even ⌊q⌋ then ⌊q⌋ else ⌊q⌋ + 1)
  else round q

/-- `round(x, 2)` (src/main.py line 131). -/
def round2 (q : ℚ) : ℚ :=
  (roundHalfEven (q * 100) : ℚ) / 100

/-- One row of the Tab-1 overview table (src/main.py lines 129–133):
`{"학교명": s, "EC 목표": round(mean ec, 2), "개체수": len(growth)}`. -/
structure SummaryRow where
  school : Key
  ec_target : ℚ
  count : Nat
deriving DecidableEq, Repr

/-- The Tab-1 summary table (src/main.py lines 121–135). -/
def summary_rows (env : EnvMap) (growth : GrowthMap) : List SummaryRow :=
  (common_schools env growth).map (fun s =>
    ⟨s, round2 (schoolEcMean env s), (growthRows growth s).length⟩)

/-- `total_plants` (src/main.py lines 122–127). -/
def total_plants (env : EnvMap) (growth : GrowthMap) : Nat :=
  ((common_schools env growth).map (fun s => (growthRows growth s).length)).sum

/-- One row of the Tab-2 per-school environment-average table
(src/main.py lines 159–170). -/
structure AvgEnvRow where
  school : Key
  temperature : ℚ
  humidity : ℚ
  ph : ℚ
  ec : ℚ
deriving DecidableEq, Repr

/-- The Tab-2 environment-average table (src/main.py lines 159–170). -/
def avg_env_rows (env : EnvMap) (growth : GrowthMap) : List AvgEnvRow :=
  (common_schools env growth).map (fun s =>
    ⟨s,
      listMean ((schoolEnvRows env s).map (·.temperature)),
      listMean ((schoolEnvRows env s).map (·.humidity)),
      listMean ((schoolEnvRows env s).map (·.ph)),
      listMean ((schoolEnvRows env s).map (·.ec))⟩)

/-- Everything the dashboard derives and renders once all checks pass. -/
structure AppOutput where
  common : List Key
  warnings : List Key
  summary : List SummaryRow
  avg_env : List AvgEnvRow
  joined : List JoinedRow
  optimal : ℚ
deriving DecidableEq, Repr

/-- The script's top-level flow (src/main.py lines 73–151): load both data
sets, halt on an empty loader result (line 81), reconcile schools and halt on
an empty intersection (line 90), then build every table and metric.  An
`Except.error` is `st.stop` (or an uncaught exception): nothing is
rendered. -/
def runApp (files : List DataFile) : Except AppError AppOutput :=
  match load_environment_data files with
  | Except.error e => Except.error e
  | Except.ok env =>
    if env = [] ∨ load_growth_data files = [] then
      Except.error AppError.EmptyDatasetError
    else if common_schools env (load_growth_data files) = [] then
      Except.error AppError.NoOverlapError
    else
      match optimal_ec env (load_growth_data files) with
      | none => Except.error AppError.ValueError
      | some opt =>
        Except.ok
          ⟨common_schools env (load_growth_data files),
            missing_env env (load_growth_data files),
            summary_rows env (load_growth_data files),
            avg_env_rows env (load_growth_data files),
            growth_all env (load_growth_data files), opt⟩

/-! ## Concrete data for witnesses and counterexamples -/

/-- CSV file `A_1.csv`: school `"A"` (code point 65), one record with EC 1. -/
def fileEnvA : DataFile :=
  ⟨[65, 95, 49], [46, 99, 115, 118], true, [⟨some 0, 20, 50, 7, 1⟩], []⟩

/-- CSV file `A_2.csv`: the same school `"A"`, one record with EC 2. -/
def fileEnvA2 : DataFile :=
  ⟨[65, 95, 50], [46, 99, 115, 118], true, [⟨some 0, 20, 50, 7, 2⟩], []⟩

/-- CSV file `B_1.csv` whose single record has an unparseable time cell. -/
def fileBadTime : DataFile :=
  ⟨[66, 95, 49], [46, 99, 115, 118], true, [⟨none, 20, 50, 7, 1⟩], []⟩

/-- A workbook whose only sheet is school `"B"` (code point 66). -/
def wbB : DataFile :=
  ⟨[119], [46, 120, 108, 115, 120], true, [], [([66], [⟨5, 100, 20⟩])]⟩

/-- A workbook with sheets `"A"` and `"C"` (code points 65 and 67). -/
def wbAC : DataFile :=
  ⟨[119], [46, 120, 108, 115, 120], true, [],
    [([65], [⟨5, 100, 10⟩]), ([67], [⟨5, 100, 20⟩])]⟩

/-- C3 scenario: school `"A"`'s environment records, EC readings 1.0, 1.0,
2.0. -/
def envA_rows : List EnvRow :=
  [⟨0, 20, 50, 7, 1⟩, ⟨1, 20, 50, 7, 1⟩, ⟨2, 20, 50, 7, 2⟩]

/-- C3 scenario: school `"B"`'s environment records, EC readings 2.0, 2.0. -/
def envB_rows : List EnvRow :=
  [⟨0, 21, 51, 7, 2⟩, ⟨1, 21, 51, 7, 2⟩]

/-- C3 scenario: the environment loader output for schools A and B. -/
def envAB : EnvMap := [([65], envA_rows), ([66], envB_rows)]

/-- C3 scenario: school `"A"`'s growth rows, fresh weights 10 and 12. -/
def growthA_rows : List GrowthRow :=
  [⟨[65], 5, 100, 10⟩, ⟨[65], 6, 110, 12⟩]

/-- C3 scenario: school `"B"`'s growth rows, fresh weights 20 and 22. -/
def growthB_rows : List GrowthRow :=
  [⟨[66], 7, 120, 20⟩, ⟨[66], 8, 130, 22⟩]

/-- C3 scenario: the growth loader output for schools A and B. -/
def growthAB : GrowthMap := [([65], growthA_rows), ([66], growthB_rows)]

/-- Growth data with an extra school `"C"` (code point 67) that has no
environment counterpart. -/
def growthABC : GrowthMap := growthAB ++ [([67], [⟨[67], 5, 100, 30⟩])]

/-! ## Lemmas about the normalizer -/

/-- A code point outside the precomposed-syllable block decomposes to
itself. -/
lemma decomposeChar_notSyl {c : Nat} (h : ¬(44032 ≤ c ∧ c < 55204)) :
    decomposeChar c = [c] := by
  simp [decomposeChar, h]

/-- Every code point emitted by `decomposeChar` is fully decomposed. -/
lemma decomposeChar_elem {c d : Nat} (h : d ∈ decomposeChar c) :
    decomposeChar d = [d] := by
  by_cases hc : 44032 ≤ c ∧ c < 55204
  · have hd : ¬(44032 ≤ d ∧ d < 55204) := by
      unfold decomposeChar at h
      rw [if_pos hc] at h
      by_cases hm : (c - 44032) % 28 = 0
      · rw [if_pos hm] at h
        simp only [List.mem_cons, List.not_mem_nil, or_false] at h
        omega
      · rw [if_neg hm] at h
        simp only [List.mem_cons, List.not_mem_nil, or_false] at h
        omega
    exact decomposeChar_notSyl hd
  · rw [decomposeChar_notSyl hc] at h
    simp only [List.mem_cons, List.not_mem_nil, or_false] at h
    subst h
    exact decomposeChar_notSyl hc

lemma hangulDecompose_cons (c : Nat) (l : List Nat) :
    hangulDecompose (c :: l) = decomposeChar c ++ hangulDecompose l := by
  simp [hangulDecompose]

lemma hangulDecompose_append (a b : List Nat) :
    hangulDecompose (a ++ b) = hangulDecompose a ++ hangulDecompose b := by
  simp [hangulDecompose]

/-- A fully decomposed string is a fixed point of decomposition. -/
lemma hangulDecompose_fixed :
    ∀ l : List Nat, (∀ x ∈ l, decomposeChar x = [x]) → hangulDecompose l = l
  | [], _ => rfl
  | c :: l, h => by
    rw [hangulDecompose_cons, h c (List.mem_cons_self c l),
      hangulDecompose_fixed l (fun x hx => h x (List.mem_cons_of_mem c hx))]
    rfl

/-- Canonical decomposition is idempotent. -/
lemma hangulDecompose_idem (s : List Nat) :
    hangulDecompose (hangulDecompose s) = hangulDecompose s := by
  induction s with
  | nil => rfl
  | cons c l ih =>
    rw [hangulDecompose_cons, hangulDecompose_append,
      hangulDecompose_fixed (decomposeChar c) (fun x hx => decomposeChar_elem hx),
      ih]

/-- Decomposing a freshly composed LV syllable recovers the two jamo. -/
lemma decomposeChar_LV {l v : Nat} (hl1 : 4352 ≤ l) (hl2 : l < 4371)
    (hv1 : 4449 ≤ v) (hv2 : v < 4470) :
    decomposeChar (44032 + ((l - 4352) * 21 + (v - 4449)) * 28) = [l, v] := by
  have hc : 44032 ≤ 44032 + ((l - 4352) * 21 + (v - 4449)) * 28 ∧
      44032 + ((l - 4352) * 21 + (v - 4449)) * 28 < 55204 := by omega
  have hm : (44032 + ((l - 4352) * 21 + (v - 4449)) * 28 - 44032) % 28 = 0 := by
    omega
  rw [decomposeChar, if_pos hc, if_pos hm]
  have e1 : 4352 + (44032 + ((l - 4352) * 21 + (v - 4449)) * 28 - 44032) / 588
      = l := by omega
  have e2 : 4449 + (44032 + ((l - 4352) * 21 + (v - 4449)) * 28 - 44032) % 588 / 28
      = v := by omega
  rw [e1, e2]

/-- Attaching a T jamo to an LV syllable appends the jamo to the syllable's
decomposition. -/
lemma decomposeChar_LVT {s t : Nat} (hs1 : 44032 ≤ s) (hs2 : s < 55204)
    (hm : (s - 44032) % 28 = 0) (ht1 : 4520 ≤ t) (ht2 : t < 4547) :
    decomposeChar (s + (t - 4519)) = decomposeChar s ++ [t] := by
  have hc : 44032 ≤ s + (t - 4519) ∧ s + (t - 4519) < 55204 := by omega
  have hm' : ¬(s + (t - 4519) - 44032) % 28 = 0 := by omega
  rw [decomposeChar, if_pos hc, if_neg hm']
  rw [decomposeChar, if_pos ⟨hs1, hs2⟩, if_pos hm]
  have e1 : (s + (t - 4519) - 44032) / 588 = (s - 44032) / 588 := by omega
  have e2 : (s + (t - 4519) - 44032) % 588 / 28 = (s - 44032) % 588 / 28 := by
    omega
  have e3 : 4519 + (s + (t - 4519) - 44032) % 28 = t := by omega
  rw [e1, e2, e3]
  rfl

/-- The composition sweep preserves canonical decomposition. -/
lemma hangulDecompose_composeAux :
    ∀ (l : List Nat) (pend : Nat),
      hangulDecompose (composeAux pend l) =
        decomposeChar pend ++ hangulDecompose l
  | [], pend => by
    rw [composeAux, hangulDecompose_cons]
  | c :: rest, pend => by
    rw [composeAux]
    split
    · rename_i h
      rw [hangulDecompose_composeAux rest]
      rw [decomposeChar_LV h.1.1 h.1.2 h.2.1 h.2.2]
      rw [decomposeChar_notSyl (by omega : ¬(44032 ≤ pend ∧ pend < 55204))]
      rw [hangulDecompose_cons, decomposeChar_notSyl
        (by omega : ¬(44032 ≤ c ∧ c < 55204))]
      rfl
    · split
      · rename_i h
        rw [hangulDecompose_composeAux rest]
        rw [decomposeChar_LVT h.1.1.1 h.1.1.2 h.1.2 h.2.1 h.2.2]
        rw [hangulDecompose_cons, decomposeChar_notSyl
          (by omega : ¬(44032 ≤ c ∧ c < 55204))]
        simp
      · rw [hangulDecompose_cons, hangulDecompose_composeAux rest,
          hangulDecompose_cons]

/-- Canonical composition preserves canonical decomposition (composed and
uncomposed strings are canonically equivalent). -/
lemma hangulDecompose_composeHangul (l : List Nat) :
    hangulDecompose (composeHangul l) = hangulDecompose l := by
  cases l with
  | nil => rfl
  | cons c rest =>
    rw [composeHangul, hangulDecompose_composeAux, hangulDecompose_cons]

/-! ## Lemmas about `idxmax` -/

lemma idxmaxAux_mem (f : ℚ → ℚ) (l : List ℚ) :
    ∀ b : ℚ, idxmaxAux f b l ∈ b :: l := by
  induction l with
  | nil => intro b; rw [idxmaxAux]; exact List.mem_cons_self b []
  | cons x xs ih =>
    intro b
    rw [idxmaxAux]
    split
    · exact List.mem_cons_of_mem b (ih x)
    · rcases List.mem_cons.1 (ih b) with h | h
      · rw [h]; exact List.mem_cons_self b _
      · exact List.mem_cons_of_mem b (List.mem_cons_of_mem x h)

lemma idxmaxAux_le (f : ℚ → ℚ) (l : List ℚ) :
    ∀ b : ℚ, ∀ y ∈ b :: l, f y ≤ f (idxmaxAux f b l) := by
  induction l with
  | nil =>
    intro b y hy
    rw [idxmaxAux]
    rcases List.mem_cons.1 hy with h | h
    · rw [h]
    · exact absurd h (List.not_mem_nil y)
  | cons x xs ih =>
    intro b y hy
    rw [idxmaxAux]
    split
    · rename_i hbx
      rcases List.mem_cons.1 hy with h | h
      · subst h
        exact le_trans (le_of_lt hbx) (ih x x (List.mem_cons_self x xs))
      · exact ih x y h
    · rename_i hbx
      rcases List.mem_cons.1 hy with h | h
      · subst h
        exact ih y y (List.mem_cons_self y xs)
      · rcases List.mem_cons.1 h with h' | h'
        · subst h'
          exact le_trans (not_lt.1 hbx) (ih b b (List.mem_cons_self b xs))
        · exact ih b y (List.mem_cons_of_mem b h')

lemma idxmaxAux_eq_or_lt (f : ℚ → ℚ) (l : List ℚ) :
    ∀ b : ℚ, idxmaxAux f b l = b ∨ f b < f (idxmaxAux f b l) := by
  induction l with
  | nil => intro b; left; rw [idxmaxAux]
  | cons x xs ih =>
    intro b
    rw [idxmaxAux]
    split
    · rename_i hbx
      right
      rcases ih x with h | h
      · rw [h]; exact hbx
      · exact lt_trans hbx h
    · exact ih b

/-- Over a strictly ascending list, the `idxmax` sweep lands on the first
(least-index, hence least-key) element attaining the maximal score. -/
lemma idxmaxAux_first (f : ℚ → ℚ) (l : List ℚ) :
    ∀ b : ℚ, List.Sorted (· < ·) (b :: l) →
      ∀ y ∈ b :: l, f y = f (idxmaxAux f b l) → idxmaxAux f b l ≤ y := by
  induction l with
  | nil =>
    intro b _ y hy _
    rw [idxmaxAux]
    rcases List.mem_cons.1 hy with h | h
    · rw [h]
    · exact absurd h (List.not_mem_nil y)
  | cons x xs ih =>
    intro b hs y hy hfy
    have hs' : List.Sorted (· < ·) (x :: xs) := hs.of_cons
    by_cases hbx : f b < f x
    · rw [idxmaxAux, if_pos hbx] at hfy ⊢
      rcases List.mem_cons.1 hy with h | h
      · exfalso
        subst h
        have hxle : f x ≤ f (idxmaxAux f x xs) :=
          idxmaxAux_le f xs x x (List.mem_cons_self x xs)
        rw [← hfy] at hxle
        exact absurd (lt_of_lt_of_le hbx hxle) (lt_irrefl _)
      · exact ih x hs' y h hfy
    · rw [idxmaxAux, if_neg hbx] at hfy ⊢
      rcases List.mem_cons.1 hy with h | h
      · subst h
        rcases idxmaxAux_eq_or_lt f xs y with h' | h'
        · rw [h']
        · exfalso; rw [← hfy] at h'; exact lt_irrefl _ h'
      · rcases List.mem_cons.1 h with h' | h'
        · subst h'
          rcases idxmaxAux_eq_or_lt f xs b with h' | h'
          · rw [h']
            exact le_of_lt (List.rel_of_sorted_cons hs y (List.mem_cons_self y xs))
          · exfalso
            rw [← hfy] at h'
            exact absurd (lt_of_lt_of_le h' (not_lt.1 hbx)) (lt_irrefl _)
        · have hbxs : List.Sorted (· < ·) (b :: xs) := by
            refine hs.sublist ?_
            exact List.Sublist.cons₂ b (List.sublist_cons_self x xs)
          exact ih b hbxs y (List.mem_cons_of_mem b h') hfy

/-- Full specification of `Series.idxmax` on a nonempty, strictly ascending
index: it returns the index of a maximal value, and the least such index on
ties. -/
lemma idxmax_spec (f : ℚ → ℚ) (l : List ℚ) (hne : l ≠ [])
    (hs : List.Sorted (· < ·) l) :
    ∃ m, idxmax f l = some m ∧ m ∈ l ∧ (∀ y ∈ l, f y ≤ f m) ∧
      (∀ y ∈ l, f y = f m → m ≤ y) := by
  cases l with
  | nil => exact absurd rfl hne
  | cons x xs =>
    exact ⟨idxmaxAux f x xs, rfl, idxmaxAux_mem f xs x,
      idxmaxAux_le f xs x, idxmaxAux_first f xs x hs⟩

/-! ## Lemmas about dictionaries -/

lemma dictGet_dictInsert_self (k : Key) (v : α) :
    ∀ m : List (Key × α), dictGet k (dictInsert k v m) = some v
  | [] => by simp [dictInsert, dictGet]
  | (k', v') :: rest => by
    by_cases h : k' = k
    · simp [dictInsert, dictGet, h]
    · simp [dictInsert, dictGet, h, dictGet_dictInsert_self k v rest]

lemma mem_dictInsert {p : Key × α} (k : Key) (v : α) :
    ∀ m : List (Key × α), p ∈ dictInsert k v m → p = (k, v) ∨ p ∈ m
  | [], h => by simpa [dictInsert] using h
  | (k', v') :: rest, h => by
    rw [dictInsert] at h
    split at h
    · rcases List.mem_cons.1 h with h' | h'
      · exact Or.inl h'
      · exact Or.inr (List.mem_cons_of_mem _ h')
    · rcases List.mem_cons.1 h with h' | h'
      · exact Or.inr (h' ▸ List.mem_cons_self _ _)
      · rcases mem_dictInsert k v rest h' with h'' | h''
        · exact Or.inl h''
        · exact Or.inr (List.mem_cons_of_mem _ h'')

lemma keys_dictInsert (k k' : Key) (v : α) :
    ∀ m : List (Key × α),
      k' ∈ keys (dictInsert k v m) ↔ k' = k ∨ k' ∈ keys m
  | [] => by simp [dictInsert, keys]
  | (k₀, v₀) :: rest => by
    by_cases h : k₀ = k
    · subst h
      simp [dictInsert, keys]
    · rw [dictInsert, if_neg h]
      simp only [keys, List.map_cons, List.mem_cons]
      rw [show (List.map Prod.fst (dictInsert k v rest)) =
        keys (dictInsert k v rest) from rfl, keys_dictInsert k k' v rest]
      simp only [keys]
      tauto

/-! ## Lemmas about reconciliation -/

/-- Membership in `common_schools` is exactly membership in both key sets. -/
lemma mem_common_schools (env : EnvMap) (growth : GrowthMap) (k : Key) :
    k ∈ common_schools env growth ↔ k ∈ keys env ∧ k ∈ keys growth := by
  unfold common_schools
  rw [(List.perm_insertionSort _ _).mem_iff, List.mem_dedup, List.mem_filter]
  simp

/-- `common_schools` is strictly ascending (sorted and duplicate-free). -/
lemma common_schools_sorted (env : EnvMap) (growth : GrowthMap) :
    List.Sorted (· < ·) (common_schools env growth) := by
  have hnd : (common_schools env growth).Nodup :=
    ((List.perm_insertionSort _ _).nodup_iff).2 (List.nodup_dedup _)
  exact (List.sorted_insertionSort _ _).lt_of_le hnd

/-- Membership in `missing_env`. -/
lemma mem_missing_env (env : EnvMap) (growth : GrowthMap) (k : Key) :
    k ∈ missing_env env growth ↔ k ∈ keys growth ∧ k ∉ keys env := by
  unfold missing_env
  rw [List.mem_dedup, List.mem_filter]
  simp

/-- Membership in the EC group keys is membership in the joined EC column. -/
lemma mem_ecGroups (rows : List JoinedRow) (g : ℚ) :
    g ∈ ecGroups rows ↔ g ∈ rows.map (·.EC) := by
  unfold ecGroups
  rw [(List.perm_insertionSort _ _).mem_iff, List.mem_dedup]

/-- The EC group keys are strictly ascending. -/
lemma ecGroups_sorted (rows : List JoinedRow) :
    List.Sorted (· < ·) (ecGroups rows) := by
  have hnd : (ecGroups rows).Nodup :=
    ((List.perm_insertionSort _ _).nodup_iff).2 (List.nodup_dedup _)
  exact (List.sorted_insertionSort _ _).lt_of_le hnd

/-- A nonempty joined table has at least one EC group. -/
lemma ecGroups_ne_nil {rows : List JoinedRow} (h : rows ≠ []) :
    ecGroups rows ≠ [] := by
  cases rows with
  | nil => exact absurd rfl h
  | cons r rest =>
    intro hnil
    have : r.EC ∈ ecGroups (r :: rest) := by
      rw [mem_ecGroups]
      exact List.mem_map_of_mem _ (List.mem_cons_self r rest)
    rw [hnil] at this
    exact List.not_mem_nil _ this

/-! ## Lemmas about the loaders -/

/-- The only error the row parser ever produces is `DataFormatError`. -/
lemma parseEnvRows_error_val :
    ∀ (rows : List RawEnvRow) (e : AppError),
      parseEnvRows rows = Except.error e → e = AppError.DataFormatError
  | [], e, h => by simp [parseEnvRows] at h
  | r :: rest, e, h => by
    rw [parseEnvRows] at h
    cases ht : r.time with
    | none =>
      rw [ht] at h
      cases h
      rfl
    | some t =>
      rw [ht] at h
      cases hp : parseEnvRows rest with
      | error e' =>
        rw [hp] at h
        simp only [Except.map, Except.error.injEq] at h
        exact h ▸ parseEnvRows_error_val rest e' hp
      | ok rs =>
        rw [hp] at h
        simp [Except.map] at h

/-- The only error the file parser ever produces is `DataFormatError`. -/
lemma parseEnvFile_error_val {f : DataFile} {e : AppError}
    (h : parseEnvFile f = Except.error e) : e = AppError.DataFormatError := by
  unfold parseEnvFile at h
  split at h
  · exact parseEnvRows_error_val _ _ h
  · cases h
    rfl

/-- A row whose time cell does not parse fails the whole row list. -/
lemma parseEnvRows_bad :
    ∀ rows : List RawEnvRow, (∃ r ∈ rows, r.time = none) →
      parseEnvRows rows = Except.error AppError.DataFormatError
  | [], h => by simp at h
  | r0 :: rest, h => by
    rw [parseEnvRows]
    rcases h with ⟨r, hr, ht⟩
    rcases List.mem_cons.1 hr with h0 | h0
    · subst h0
      rw [ht]
    · cases ht0 : r0.time with
      | none => rfl
      | some t =>
        rw [parseEnvRows_bad rest ⟨r, h0, ht⟩]
        rfl

/-- A file with a missing time column or an unparseable time cell fails with
`DataFormatError`. -/
lemma parseEnvFile_bad {f : DataFile}
    (h : f.hasTimeColumn = false ∨ ∃ r ∈ f.envRows, r.time = none) :
    parseEnvFile f = Except.error AppError.DataFormatError := by
  unfold parseEnvFile
  rcases h with h | h
  · rw [h]
    simp
  · split
    · exact parseEnvRows_bad f.envRows h
    · rfl

/-- If any enumerated CSV file fails to parse, the whole load pass fails with
`DataFormatError`, whatever has been accumulated so far. -/
lemma loadEnvAux_error {f : DataFile}
    (hcsv : lowerExt f.ext = csvExt)
    (hbad : parseEnvFile f = Except.error AppError.DataFormatError) :
    ∀ (files : List DataFile) (acc : EnvMap), f ∈ files →
      loadEnvAux acc files = Except.error AppError.DataFormatError
  | [], _, hf => absurd hf (List.not_mem_nil f)
  | g :: rest, acc, hf => by
    rw [loadEnvAux]
    by_cases hg : lowerExt g.ext = csvExt
    · rw [if_pos hg]
      cases hp : parseEnvFile g with
      | error e =>
        have he := parseEnvFile_error_val hp
        subst he
        rfl
      | ok rows =>
        rcases List.mem_cons.1 hf with h0 | h0
        · subst h0
          rw [hp] at hbad
          cases hbad
        · exact loadEnvAux_error hcsv hbad rest _ h0
    · rw [if_neg hg]
      rcases List.mem_cons.1 hf with h0 | h0
      · subst h0
        exact absurd hcsv hg
      · exact loadEnvAux_error hcsv hbad rest acc h0

/-- Appending one more file to the directory listing post-composes one loop
step onto the loader's result. -/
lemma loadEnvAux_append (g : DataFile) :
    ∀ (files : List DataFile) (acc : EnvMap),
      loadEnvAux acc (files ++ [g]) =
        match loadEnvAux acc files with
        | Except.error e => Except.error e
        | Except.ok env =>
          if lowerExt g.ext = csvExt then
            match parseEnvFile g with
            | Except.error e => Except.error e
            | Except.ok rows =>
              Except.ok (dictInsert (normalize_name (stemSchool g.stem)) rows env)
          else Except.ok env
  | [], acc => rfl
  | f :: rest, acc => by
    simp only [List.cons_append, loadEnvAux]
    by_cases hf : lowerExt f.ext = csvExt
    · simp only [if_pos hf]
      cases hp : parseEnvFile f with
      | error e => rfl
      | ok rows => exact loadEnvAux_append g rest _
    · simp only [if_neg hf]
      exact loadEnvAux_append g rest acc

/-- With no `.xlsx` file in the directory, the growth loader returns the
empty mapping (it does not fail). -/
lemma load_growth_data_no_xlsx {files : List DataFile}
    (h : ∀ f ∈ files, lowerExt f.ext ≠ xlsxExt) :
    load_growth_data files = [] := by
  unfold load_growth_data
  have hnone : files.find? (fun f => lowerExt f.ext == xlsxExt) = none := by
    rw [List.find?_eq_none]
    intro f hf
    simpa using h f hf
  rw [hnone]

/-- The growth loader's sheet loop only produces rows tagged with their dict
key. -/
lemma loadSheets_tagged :
    ∀ (sheets : List (Key × List RawGrowthRow)) (acc : GrowthMap),
      TaggedGrowth acc → TaggedGrowth (loadSheets acc sheets)
  | [], _, hacc => hacc
  | sheet :: rest, acc, hacc => by
    rw [loadSheets]
    refine loadSheets_tagged rest _ ?_
    intro p hp r hr
    rcases mem_dictInsert _ _ _ hp with h0 | h0
    · subst h0
      simp only at hr
      rcases List.mem_map.1 hr with ⟨r0, _, hr0⟩
      rw [← hr0]
    · exact hacc p h0 r hr

/-- Every growth-loader output is tagged: each row's `학교` column equals the
mapping key it is stored under. -/
lemma load_growth_data_tagged (files : List DataFile) :
    TaggedGrowth (load_growth_data files) := by
  unfold load_growth_data
  cases files.find? (fun f => lowerExt f.ext == xlsxExt) with
  | none =>
    intro p hp
    exact absurd hp (List.not_mem_nil p)
  | some wb =>
    refine loadSheets_tagged wb.sheets [] ?_
    intro p hp
    exact absurd hp (List.not_mem_nil p)

/-! ## Lemmas about the aggregation pipeline -/

lemma dictGet_mem {k : Key} {v : α} :
    ∀ m : List (Key × α), dictGet k m = some v → (k, v) ∈ m
  | [], h => by simp [dictGet] at h
  | (k', v') :: rest, h => by
    rw [dictGet] at h
    split at h
    · rename_i heq
      cases h
      subst heq
      exact List.mem_cons_self _ _
    · exact List.mem_cons_of_mem _ (dictGet_mem rest h)

/-- In a tagged growth mapping, the rows filed under school `s` are tagged
`s`. -/
lemma growthRows_school {growth : GrowthMap} (ht : TaggedGrowth growth)
    {s : Key} {gr : GrowthRow} (hgr : gr ∈ growthRows growth s) :
    gr.school = s := by
  unfold growthRows at hgr
  cases hd : dictGet s growth with
  | none =>
    rw [hd] at hgr
    simp at hgr
  | some l =>
    rw [hd] at hgr
    exact ht (s, l) (dictGet_mem growth hd) gr hgr

/-- Decomposition of membership in the joined growth table. -/
lemma growth_all_mem {env : EnvMap} {growth : GrowthMap} {r : JoinedRow}
    (h : r ∈ growth_all env growth) :
    ∃ s ∈ common_schools env growth, ∃ gr ∈ growthRows growth s,
      r = ⟨gr.school, gr.leaf_count, gr.shoot_length_mm, gr.fresh_weight_g,
        schoolEcMean env gr.school⟩ := by
  unfold growth_all at h
  rcases List.mem_flatMap.1 h with ⟨s, hs, hr⟩
  rcases List.mem_map.1 hr with ⟨gr, hgr, hr'⟩
  exact ⟨s, hs, gr, hgr, hr'.symm⟩

/-- Rows of the joined table belong to common schools and carry the school's
unrounded environment-EC mean. -/
lemma growth_all_school_mem {env : EnvMap} {growth : GrowthMap}
    (ht : TaggedGrowth growth) {r : JoinedRow} (h : r ∈ growth_all env growth) :
    r.school ∈ common_schools env growth ∧ r.EC = schoolEcMean env r.school := by
  rcases growth_all_mem h with ⟨s, hs, gr, hgr, rfl⟩
  have hsch : gr.school = s := growthRows_school ht hgr
  exact ⟨by dsimp only; rw [hsch]; exact hs, rfl⟩

/-- Every common school with at least one growth row appears in the joined
table. -/
lemma growth_all_exists {env : EnvMap} {growth : GrowthMap}
    (ht : TaggedGrowth growth) {s : Key}
    (hs : s ∈ common_schools env growth) {gr : GrowthRow}
    (hgr : gr ∈ growthRows growth s) :
    ∃ r ∈ growth_all env growth, r.school = s := by
  refine ⟨⟨gr.school, gr.leaf_count, gr.shoot_length_mm, gr.fresh_weight_g,
    schoolEcMean env gr.school⟩, ?_, ?_⟩
  · unfold growth_all
    exact List.mem_flatMap.2 ⟨s, hs, List.mem_map_of_mem _ hgr⟩
  · dsimp only
    exact growthRows_school ht hgr

/-- The schools of the summary table are common schools. -/
lemma summary_school_mem {env : EnvMap} {growth : GrowthMap} {row : SummaryRow}
    (h : row ∈ summary_rows env growth) :
    row.school ∈ common_schools env growth := by
  unfold summary_rows at h
  rcases List.mem_map.1 h with ⟨s, hs, hrow⟩
  rw [← hrow]
  exact hs

/-- The schools of the environment-average table are common schools. -/
lemma avg_env_school_mem {env : EnvMap} {growth : GrowthMap} {row : AvgEnvRow}
    (h : row ∈ avg_env_rows env growth) :
    row.school ∈ common_schools env growth := by
  unfold avg_env_rows at h
  rcases List.mem_map.1 h with ⟨s, hs, hrow⟩
  rw [← hrow]
  exact hs

/-- `idxmax` only returns members of its index list. -/
lemma idxmax_mem {f : ℚ → ℚ} {l : List ℚ} {m : ℚ}
    (h : idxmax f l = some m) : m ∈ l := by
  cases l with
  | nil => simp [idxmax] at h
  | cons x xs =>
    rw [idxmax] at h
    cases h
    exact idxmaxAux_mem f xs x

/-- When every check passes, the run returns the full dashboard output. -/
lemma runApp_eq_ok {files : List DataFile} {env : EnvMap}
    (hload : load_environment_data files = Except.ok env)
    (henv : env ≠ []) (hgrowth : load_growth_data files ≠ [])
    (hcommon : common_schools env (load_growth_data files) ≠ [])
    {e : ℚ} (hopt : optimal_ec env (load_growth_data files) = some e) :
    runApp files = Except.ok
      ⟨common_schools env (load_growth_data files),
        missing_env env (load_growth_data files),
        summary_rows env (load_growth_data files),
        avg_env_rows env (load_growth_data files),
        growth_all env (load_growth_data files), e⟩ := by
  unfold runApp
  rw [hload]
  have h1 : ¬(env = [] ∨ load_growth_data files = []) := by
    rintro (h | h)
    · exact henv h
    · exact hgrowth h
  simp only [if_neg h1, if_neg hcommon, hopt]

/-! ## Claim theorems -/

/-- C1: for every joined growth table produced from the loaders' outputs
(nonempty, as it is whenever the app reaches line 145), `optimal_ec` returns
an EC value that is one of the group keys of the EC-grouped table; no group
has a strictly greater mean fresh weight than the returned group; and when
several groups tie at the maximal mean, the returned EC is the first maximum
in ascending-EC iteration order — the least such EC, as the group keys are
iterated in ascending order. -/
theorem optimal_ec_spec (env : EnvMap) (growth : GrowthMap)
    (hne : growth_all env growth ≠ []) :
    ∃ e, optimal_ec env growth = some e ∧
      e ∈ ecGroups (growth_all env growth) ∧
      (∀ g ∈ ecGroups (growth_all env growth),
        groupMean (growth_all env growth) g ≤
          groupMean (growth_all env growth) e) ∧
      (∀ g ∈ ecGroups (growth_all env growth),
        groupMean (growth_all env growth) g =
          groupMean (growth_all env growth) e → e ≤ g) := by
  unfold optimal_ec
  exact idxmax_spec _ _ (ecGroups_ne_nil hne) (ecGroups_sorted _)

/-- Witness for C1 at the C3 scenario data. -/
theorem optimal_ec_spec_witness :
    growth_all envAB growthAB ≠ [] ∧
    ∃ e, optimal_ec envAB growthAB = some e ∧
      e ∈ ecGroups (growth_all envAB growthAB) ∧
      (∀ g ∈ ecGroups (growth_all envAB growthAB),
        groupMean (growth_all envAB growthAB) g ≤
          groupMean (growth_all envAB growthAB) e) ∧
      (∀ g ∈ ecGroups (growth_all envAB growthAB),
        groupMean (growth_all envAB growthAB) g =
          groupMean (growth_all envAB growthAB) e → e ≤ g) :=
  ⟨by decide, optimal_ec_spec envAB growthAB (by decide)⟩

/-- C2: `common_schools` is exactly the intersection of the two loaders' key
sets, sorted strictly ascending in the keys' natural (code-point
lexicographic) order; the schools of the aggregated tables are exactly the
common schools — the summary and environment-average tables list precisely
`commonSchools`, every joined-table row belongs to a common school, and every
common school with a growth row appears in the joined table; and recomputing
from unchanged inputs yields the same list. -/
theorem common_schools_spec (env : EnvMap) (growth : GrowthMap)
    (ht : TaggedGrowth growth) :
    (∀ k, k ∈ common_schools env growth ↔ k ∈ keys env ∧ k ∈ keys growth) ∧
    List.Sorted (· < ·) (common_schools env growth) ∧
    (summary_rows env growth).map (·.school) = common_schools env growth ∧
    (avg_env_rows env growth).map (·.school) = common_schools env growth ∧
    (∀ r ∈ growth_all env growth, r.school ∈ common_schools env growth) ∧
    (∀ s ∈ common_schools env growth, growthRows growth s ≠ [] →
      ∃ r ∈ growth_all env growth, r.school = s) ∧
    (∀ env' growth', env' = env → growth' = growth →
      common_schools env' growth' = common_schools env growth) := by
  refine ⟨mem_common_schools env growth, common_schools_sorted env growth,
    ?_, ?_, fun r hr => (growth_all_school_mem ht hr).1, ?_, ?_⟩
  · simp [summary_rows, List.map_map, Function.comp_def]
  · simp [avg_env_rows, List.map_map, Function.comp_def]
  · intro s hs hne
    cases hgr : growthRows growth s with
    | nil => exact absurd hgr hne
    | cons gr rest =>
      exact growth_all_exists ht hs (hgr ▸ List.mem_cons_self gr rest)
  · intro env' growth' he hg
    rw [he, hg]

/-- Witness for C2 at the C3 scenario data. -/
theorem common_schools_spec_witness :
    TaggedGrowth growthAB ∧
    (∀ k, k ∈ common_schools envAB growthAB ↔
      k ∈ keys envAB ∧ k ∈ keys growthAB) ∧
    List.Sorted (· < ·) (common_schools envAB growthAB) :=
  ⟨by decide, (common_schools_spec envAB growthAB (by decide)).1,
    (common_schools_spec envAB growthAB (by decide)).2.1⟩

/-- C4: when the environment and growth key sets do not intersect,
reconciliation yields an empty `commonSchools` and the run halts with the
no-overlap condition; since the result is an error, no aggregated table,
metric or chart is produced (fail-fast, no partial dashboard). -/
theorem no_overlap_fails (files : List DataFile) (env : EnvMap)
    (hload : load_environment_data files = Except.ok env)
    (henv : env ≠ []) (hgrowth : load_growth_data files ≠ [])
    (hdisj : ∀ k, ¬(k ∈ keys env ∧ k ∈ keys (load_growth_data files))) :
    common_schools env (load_growth_data files) = [] ∧
    runApp files = Except.error AppError.NoOverlapError := by
  have hc : common_schools env (load_growth_data files) = [] := by
    rw [List.eq_nil_iff_forall_not_mem]
    intro k hk
    exact hdisj k ((mem_common_schools _ _ k).1 hk)
  refine ⟨hc, ?_⟩
  unfold runApp
  rw [hload]
  have h1 : ¬(env = [] ∨ load_growth_data files = []) := by
    rintro (h | h)
    · exact henv h
    · exact hgrowth h
  simp only [if_neg h1, if_pos hc]

/-- Witness for C4: one environment file for school `"A"` and a workbook
whose single sheet is school `"B"`. -/
theorem no_overlap_fails_witness :
    common_schools [([65], [⟨0, 20, 50, 7, 1⟩])]
      (load_growth_data [fileEnvA, wbB]) = [] ∧
    runApp [fileEnvA, wbB] = Except.error AppError.NoOverlapError := by
  refine no_overlap_fails [fileEnvA, wbB] [([65], [⟨0, 20, 50, 7, 1⟩])]
    (by decide) (by decide) (by decide) ?_
  intro k hk
  rcases hk with ⟨h1, h2⟩
  have hg : keys (load_growth_data [fileEnvA, wbB]) = [[66]] := by decide
  rw [hg] at h2
  simp only [keys, List.map_cons, List.map_nil, List.mem_cons,
    List.not_mem_nil, or_false] at h1 h2
  subst h1
  exact absurd h2 (by decide)

/-- C5: the set of schools present in growth data but absent from environment
data is exactly the warning set `missing_env` = growthKeys − envKeys; a
(possibly nonempty) warning set never causes a failure — the run still
succeeds; and those schools are excluded from `commonSchools` and from every
aggregation: the summary table, the environment-average table and the joined
growth table. -/
theorem missing_env_warning (files : List DataFile) (env : EnvMap)
    (hload : load_environment_data files = Except.ok env)
    (henv : env ≠ []) (hgrowth : load_growth_data files ≠ [])
    (hcommon : common_schools env (load_growth_data files) ≠ [])
    (hrows : growth_all env (load_growth_data files) ≠ []) :
    (∀ k, k ∈ missing_env env (load_growth_data files) ↔
      k ∈ keys (load_growth_data files) ∧ k ∉ keys env) ∧
    (runApp files).isOk = true ∧
    (∀ s ∈ missing_env env (load_growth_data files),
      s ∉ common_schools env (load_growth_data files) ∧
      (∀ row ∈ summary_rows env (load_growth_data files), row.school ≠ s) ∧
      (∀ row ∈ avg_env_rows env (load_growth_data files), row.school ≠ s) ∧
      (∀ row ∈ growth_all env (load_growth_data files), row.school ≠ s)) := by
  have ht := load_growth_data_tagged files
  refine ⟨mem_missing_env env _, ?_, ?_⟩
  · obtain ⟨e, hopt, -⟩ :=
      idxmax_spec (groupMean (growth_all env (load_growth_data files)))
        (ecGroups (growth_all env (load_growth_data files)))
        (ecGroups_ne_nil hrows) (ecGroups_sorted _)
    have hopt' : optimal_ec env (load_growth_data files) = some e := hopt
    rw [runApp_eq_ok hload henv hgrowth hcommon hopt']
    rfl
  · intro s hs
    have hsenv : s ∉ keys env := ((mem_missing_env env _ s).1 hs).2
    have hscommon : s ∉ common_schools env (load_growth_data files) := by
      intro hc
      exact hsenv ((mem_common_schools _ _ s).1 hc).1
    refine ⟨hscommon, ?_, ?_, ?_⟩
    · intro row hrow heq
      exact hscommon (heq ▸ summary_school_mem hrow)
    · intro row hrow heq
      exact hscommon (heq ▸ avg_env_school_mem hrow)
    · intro row hrow heq
      exact hscommon (heq ▸ (growth_all_school_mem ht hrow).1)

/-- Witness for C5: school `"A"` has both kinds of data, school `"C"` appears
only in the workbook; the warning set is `{"C"}` and the run still
succeeds. -/
theorem missing_env_warning_witness :
    missing_env [([65], [⟨0, 20, 50, 7, 1⟩])]
      (load_growth_data [fileEnvA, wbAC]) = [[67]] ∧
    (runApp [fileEnvA, wbAC]).isOk = true :=
  ⟨by decide,
    (missing_env_warning [fileEnvA, wbAC] [([65], [⟨0, 20, 50, 7, 1⟩])]
      (by decide) (by decide) (by decide) (by decide) (by decide)).2.1⟩

/-- C10: each summary-table row holds its school, the school's mean
environment EC rounded to 2 decimal places, and the school's growth-record
count; the rounding is applied only there — every joined growth row carries
the unrounded mean as its `EC`, and the value `optimal_ec` returns is one of
those unrounded means. -/
theorem summary_rounding_spec (env : EnvMap) (growth : GrowthMap)
    (ht : TaggedGrowth growth) :
    (∀ s ∈ common_schools env growth,
      (⟨s, round2 (listMean ((schoolEnvRows env s).map (·.ec))),
        (growthRows growth s).length⟩ : SummaryRow) ∈
        summary_rows env growth) ∧
    (∀ row ∈ growth_all env growth,
      row.EC = listMean ((schoolEnvRows env row.school).map (·.ec))) ∧
    (∀ e, optimal_ec env growth = some e →
      ∃ s ∈ common_schools env growth,
        e = listMean ((schoolEnvRows env s).map (·.ec))) := by
  refine ⟨?_, ?_, ?_⟩
  · intro s hs
    exact List.mem_map_of_mem _ hs
  · intro row hrow
    exact (growth_all_school_mem ht hrow).2
  · intro e hopt
    have he : e ∈ ecGroups (growth_all env growth) := idxmax_mem hopt
    rw [mem_ecGroups] at he
    rcases List.mem_map.1 he with ⟨row, hrow, hEC⟩
    refine ⟨row.school, (growth_all_school_mem ht hrow).1, ?_⟩
    rw [← hEC]
    exact (growth_all_school_mem ht hrow).2

/-- Witness for C10 at the C3 scenario data. -/
theorem summary_rounding_spec_witness :
    TaggedGrowth growthAB ∧
    (∀ row ∈ growth_all envAB growthAB,
      row.EC = listMean ((schoolEnvRows envAB row.school).map (·.ec))) :=
  ⟨by decide, (summary_rounding_spec envAB growthAB (by decide)).2.1⟩

/-- C3: the two-school scenario. With school A's (code point 65) environment
EC readings 1.0, 1.0, 2.0 and growth weights 10, 12, and school B's (code
point 66) EC readings 2.0, 2.0 and weights 20, 22: the reconciled school list
is [A, B]; A's environment EC mean is 4/3; the joined table's A-rows carry
EC = 4/3 and its B-rows EC = 2; the EC-grouped mean fresh weights are 11 at
EC 4/3 and 21 at EC 2; and `optimal_ec` returns 2. -/
theorem scenario_two_schools :
    common_schools envAB growthAB = [[65], [66]] ∧
    schoolEcMean envAB [65] = 4 / 3 ∧
    growth_all envAB growthAB =
      [⟨[65], 5, 100, 10, 4 / 3⟩, ⟨[65], 6, 110, 12, 4 / 3⟩,
        ⟨[66], 7, 120, 20, 2⟩, ⟨[66], 8, 130, 22, 2⟩] ∧
    ecGroups (growth_all envAB growthAB) = [4 / 3, 2] ∧
    groupMean (growth_all envAB growthAB) (4 / 3) = 11 ∧
    groupMean (growth_all envAB growthAB) 2 = 21 ∧
    optimal_ec envAB growthAB = some 2 := by
  have hc : common_schools envAB growthAB = [[65], [66]] := by decide
  have hmA : schoolEcMean envAB [65] = 4 / 3 := by
    norm_num [schoolEcMean, schoolEnvRows, dictGet, envAB, envA_rows, listMean]
  have hmB : schoolEcMean envAB [66] = 2 := by
    norm_num [schoolEcMean, schoolEnvRows, dictGet, envAB, envA_rows,
      envB_rows, listMean]
  have hga : growth_all envAB growthAB =
      [⟨[65], 5, 100, 10, 4 / 3⟩, ⟨[65], 6, 110, 12, 4 / 3⟩,
        ⟨[66], 7, 120, 20, 2⟩, ⟨[66], 8, 130, 22, 2⟩] := by
    unfold growth_all
    rw [hc]
    norm_num [growthRows, dictGet, growthAB, growthA_rows, growthB_rows,
      hmA, hmB]
  have hgr : ecGroups (growth_all envAB growthAB) = [4 / 3, 2] := by
    rw [hga]
    norm_num [ecGroups, List.insertionSort, List.orderedInsert,
      List.dedup_cons_of_mem, List.dedup_cons_of_not_mem]
  have hm1 : groupMean (growth_all envAB growthAB) (4 / 3) = 11 := by
    rw [hga]
    norm_num [groupMean, rowsWithEC, listMean]
  have hm2 : groupMean (growth_all envAB growthAB) 2 = 21 := by
    rw [hga]
    norm_num [groupMean, rowsWithEC, listMean]
  refine ⟨hc, hmA, hga, hgr, hm1, hm2, ?_⟩
  unfold optimal_ec
  rw [hgr, idxmax, idxmaxAux, if_pos (by rw [hm1, hm2]; norm_num), idxmaxAux]

/-- C6: the name normalizer is a (pure, total) function on code-point
strings, it is idempotent — `normalize_name (normalize_name x) =
normalize_name x` for every string `x` — and any two encodings of the same
visible string, i.e. with the same canonical decomposition (the NFC and NFD
composition forms in particular), normalize to the same key. -/
theorem normalize_name_idem_canonical :
    (∀ x : Key, normalize_name (normalize_name x) = normalize_name x) ∧
    (∀ x y : Key, hangulDecompose x = hangulDecompose y →
      normalize_name x = normalize_name y) := by
  constructor
  · intro x
    unfold normalize_name
    rw [hangulDecompose_composeHangul, hangulDecompose_idem]
  · intro x y h
    unfold normalize_name
    rw [h]

/-- Witness for C6 at the string "한글": its NFD jamo encoding
`[ᄒ, ᅡ, ᆫ, ᄀ, ᅳ, ᆯ]` and its NFC syllable encoding `[한, 글]` have the same
canonical decomposition, so they normalize to the same key; idempotence holds
there as well. -/
theorem normalize_name_idem_canonical_witness :
    normalize_name [4370, 4449, 4523, 4352, 4467, 4527] =
      normalize_name [54620, 44544] ∧
    normalize_name (normalize_name [54620, 44544]) =
      normalize_name [54620, 44544] :=
  ⟨normalize_name_idem_canonical.2 [4370, 4449, 4523, 4352, 4467, 4527]
      [54620, 44544] (by decide),
    normalize_name_idem_canonical.1 [54620, 44544]⟩

/-- C7 (amended): when a later-enumerated CSV file resolves to the same
school key as an earlier one, the later file's records REPLACE the earlier
file's records (they are not appended and not merged): after loading
`files ++ [f]`, the mapping holds exactly `f`'s parsed records at `f`'s
key. -/
theorem env_loader_duplicate_replaces (files : List DataFile) (f : DataFile)
    (env : EnvMap) (hload : load_environment_data files = Except.ok env)
    (hcsv : lowerExt f.ext = csvExt) (rows : List EnvRow)
    (hparse : parseEnvFile f = Except.ok rows) :
    load_environment_data (files ++ [f]) =
      Except.ok (dictInsert (normalize_name (stemSchool f.stem)) rows env) ∧
    dictGet (normalize_name (stemSchool f.stem))
      (dictInsert (normalize_name (stemSchool f.stem)) rows env) = some rows := by
  constructor
  · unfold load_environment_data at hload ⊢
    rw [loadEnvAux_append, hload]
    simp only [if_pos hcsv, hparse]
  · exact dictGet_dictInsert_self _ _ env

/-- Witness for C7 (amended) at the two concrete files `A_1.csv` and
`A_2.csv` of the counterexample. -/
theorem env_loader_duplicate_replaces_witness :
    load_environment_data [fileEnvA] = Except.ok [([65], [⟨0, 20, 50, 7, 1⟩])] ∧
    lowerExt fileEnvA2.ext = csvExt ∧
    parseEnvFile fileEnvA2 = Except.ok [⟨0, 20, 50, 7, 2⟩] ∧
    load_environment_data ([fileEnvA] ++ [fileEnvA2]) =
      Except.ok (dictInsert (normalize_name (stemSchool fileEnvA2.stem))
        [⟨0, 20, 50, 7, 2⟩] [([65], [⟨0, 20, 50, 7, 1⟩])]) :=
  ⟨by decide, by decide, by decide,
    (env_loader_duplicate_replaces [fileEnvA] fileEnvA2
      [([65], [⟨0, 20, 50, 7, 1⟩])] (by decide) (by decide)
      [⟨0, 20, 50, 7, 2⟩] (by decide)).1⟩

/-- C7 counterexample: `A_1.csv` (one record, EC 1) and `A_2.csv` (one
record, EC 2) both resolve to school key `"A"`; the loaded mapping holds only
the second file's record — not the two files' records appended in enumeration
order, as the claim states. -/
theorem env_loader_duplicate_cex :
    load_environment_data [fileEnvA, fileEnvA2] =
      Except.ok [([65], [⟨0, 20, 50, 7, 2⟩])] ∧
    load_environment_data [fileEnvA, fileEnvA2] ≠
      Except.ok [([65], [⟨0, 20, 50, 7, 1⟩, ⟨0, 20, 50, 7, 2⟩])] := by
  constructor
  · decide
  · decide

/-- C8: with no workbook file among the directory's files, the growth loader
returns the empty mapping rather than an error; treating the empty result as
fatal is the caller's decision (src/main.py line 81), where the run halts
with the empty-dataset condition. -/
theorem growth_loader_no_workbook (files : List DataFile)
    (hnx : ∀ f ∈ files, lowerExt f.ext ≠ xlsxExt) :
    load_growth_data files = [] ∧
    (∀ env, load_environment_data files = Except.ok env →
      runApp files = Except.error AppError.EmptyDatasetError) := by
  have h0 := load_growth_data_no_xlsx hnx
  refine ⟨h0, fun env hload => ?_⟩
  unfold runApp
  rw [hload, h0]
  simp

/-- Witness for C8 at a directory holding a single CSV file. -/
theorem growth_loader_no_workbook_witness :
    load_growth_data [fileEnvA] = [] ∧
    runApp [fileEnvA] = Except.error AppError.EmptyDatasetError := by
  have h := growth_loader_no_workbook [fileEnvA] (by decide)
  exact ⟨h.1, h.2 [([65], [⟨0, 20, 50, 7, 1⟩])] (by decide)⟩

/-- C9: an environment CSV file whose time column is missing, or one of whose
records has a time value that does not parse, fails the entire load pass with
`DataFormatError` — no environment mapping is produced at all (so no record
is silently dropped and no per-row recovery occurs), and the app run halts
with that error. -/
theorem env_loader_time_failure (files : List DataFile) (f : DataFile)
    (hf : f ∈ files) (hcsv : lowerExt f.ext = csvExt)
    (hbad : f.hasTimeColumn = false ∨ ∃ r ∈ f.envRows, r.time = none) :
    load_environment_data files = Except.error AppError.DataFormatError ∧
    runApp files = Except.error AppError.DataFormatError := by
  have hload : load_environment_data files =
      Except.error AppError.DataFormatError :=
    loadEnvAux_error hcsv (parseEnvFile_bad hbad) files [] hf
  refine ⟨hload, ?_⟩
  unfold runApp
  rw [hload]

/-- Witness for C9 at a directory holding one CSV file with an unparseable
time cell (and a workbook, so the failure is due to the time cell alone). -/
theorem env_loader_time_failure_witness :
    load_environment_data [fileBadTime, wbB] =
      Except.error AppError.DataFormatError ∧
    runApp [fileBadTime, wbB] = Except.error AppError.DataFormatError :=
  env_loader_time_failure [fileBadTime, wbB] fileBadTime (by decide)
    (by decide) (by decide)

end ECDash
